import Mathlib

/-!
# Verification of the geo-photo-toolkit coordinate-resolution core

A shallow embedding, in Lean 4, of the coordinate-resolution core of the
geo-photo-toolkit repository: the free-text GPS parser of `src/core/ocr.py`
(`_parse_gps_from_text` and its three regex tiers DMS / DDM / DD), the
numeric converters of `src/core/exif.py` and `src/core/ocr.py`, the EXIF
GPS decoding block of `extract_exif_data`, the per-photo orchestration of
`src/workflows/gps_extraction.py` (`run_gps_extraction_workflow`), and the
preprocessing dispatch of `src/core/preprocess.py`.

Machine reals are modelled as `ℚ`; Python `None`-able values as `Option`;
Python regular expressions are embedded as explicit backtracking matchers
in continuation-passing style, faithful to `re` semantics: `search` tries
start positions left to right, quantifiers are greedy with backtracking
(`X?`, `\d{1,2}`, `[\d.]+`, `\s*`) except the lazy `.*?`, and character
classes are as written in the source patterns.  `\d` and `\s` are modelled
as their ASCII meanings.
-/

namespace GeoPhoto

/-! ## Regex building blocks (Python `re` backtracking semantics) -/

/-- Python `\s` on the ASCII range: the whitespace characters matched by
`re`'s `\s` class. -/
def pyIsSpace (c : Char) : Bool :=
  c = ' ' ∨ c = '\t' ∨ c = '\n' ∨ c = '\r' ∨ c = '\x0b' ∨ c = '\x0c'

/-- Candidate (captured, rest) splits for a bounded greedy class repetition
`cls{mn,mx}`: the maximal run first, down to length `mn`, which is the order
a backtracking engine tries them in. -/
def classSplits (cls : Char → Bool) (mn mx : ℕ) (s : List Char) :
    List (List Char × List Char) :=
  let run := (s.takeWhile cls).take mx
  if run.length < mn then []
  else (List.range (run.length + 1 - mn)).map fun i =>
    let n := run.length - i
    (s.take n, s.drop n)

/-- Try each candidate split in order, with the full continuation: the
backtracking order of a regex quantifier. -/
def firstSome {α : Type} (cands : List (List Char × List Char))
    (k : List Char → List Char → Option α) : Option α :=
  match cands with
  | [] => none
  | (g, r) :: rest => (k g r).orElse fun _ => firstSome rest k

/-- Greedy `cls{mn,mx}` with backtracking into the continuation. -/
def chomp {α : Type} (cls : Char → Bool) (mn mx : ℕ) (s : List Char)
    (k : List Char → List Char → Option α) : Option α :=
  firstSome (classSplits cls mn mx s) k

/-- Greedy optional single-character class `[...]?`: try consuming first,
then not consuming. -/
def optClass {α : Type} (cls : Char → Bool) (s : List Char)
    (k : List Char → Option α) : Option α :=
  match s with
  | c :: rest => if cls c then (k rest).orElse fun _ => k s else k s
  | [] => k []

/-- Mandatory single-character class `[...]`, capturing the character. -/
def oneClass {α : Type} (cls : Char → Bool) (s : List Char)
    (k : Char → List Char → Option α) : Option α :=
  match s with
  | c :: rest => if cls c then k c rest else none
  | [] => none

/-- Lazy `.*?`: try the continuation at the current position first, then
consume one character (anything but a newline, as `.` without DOTALL) and
repeat. -/
def lazyStar {α : Type} (k : List Char → Option α) : List Char → Option α
  | [] => k []
  | c :: rest =>
    (k (c :: rest)).orElse fun _ =>
      if c = '\n' then none else lazyStar k rest

/-- Greedy `cls*`: longest run first, backtracking down to the empty match. -/
def starClass {α : Type} (cls : Char → Bool) (s : List Char)
    (k : List Char → Option α) : Option α :=
  firstSome (classSplits cls 0 s.length s) fun _ r => k r

/-- `re.search`: try a match anchored at each position, left to right,
including the end-of-string position. -/
def searchAt {α : Type} (m : List Char → Option α) : List Char → Option α
  | [] => m []
  | c :: rest => (m (c :: rest)).orElse fun _ => searchAt m rest

/-! ## Text normalisation (`_parse_gps_from_text`, src/core/ocr.py lines 34-43) -/

/-- Python `str.replace` with a single-character pattern: a character map. -/
def replaceChar (a b : Char) (s : List Char) : List Char :=
  s.map fun c => if c = a then b else c

/-- Python `str.replace("  ", " ")`: leftmost non-overlapping replacement of
two spaces by one, scanning resumes after each replacement. -/
def collapseDoubleSpace : List Char → List Char
  | [] => []
  | [c] => [c]
  | a :: b :: rest =>
    if a = ' ' ∧ b = ' ' then ' ' :: collapseDoubleSpace rest
    else a :: collapseDoubleSpace (b :: rest)

/-- The character alphabet kept by `re.sub(r'[^\dNSEW°\'".\- ]+', " ", ...)`
(no IGNORECASE flag on this substitution, so lowercase hemisphere letters
are not kept). -/
def allowedChar (c : Char) : Bool :=
  c.isDigit ∨ c = 'N' ∨ c = 'S' ∨ c = 'E' ∨ c = 'W' ∨ c = '°' ∨
  c = '\'' ∨ c = '"' ∨ c = '.' ∨ c = '-' ∨ c = ' '

/-- `re.sub(bad+, rep, s)` worker: each maximal run of characters failing
`good` is replaced by the single character `rep`; the flag records whether
the previous character was part of a bad run already replaced. -/
def squashAux (good : Char → Bool) (rep : Char) : Bool → List Char → List Char
  | _, [] => []
  | inBad, c :: rest =>
    if good c then c :: squashAux good rep false rest
    else if inBad then squashAux good rep true rest
    else rep :: squashAux good rep true rest

/-- `re.sub(bad+, rep, s)`: each maximal run of characters failing `good` is
replaced by the single character `rep`. -/
def squashRuns (good : Char → Bool) (rep : Char) (l : List Char) : List Char :=
  squashAux good rep false l

/-- The normalisation pipeline of `_parse_gps_from_text` (ocr.py 34-43):
newline→space, `*`→`°`, `/`→`'`, `,`→`.`, double-space collapse, strip runs
of characters outside the coordinate alphabet to a space, collapse
whitespace runs to a space. -/
def cleanText (s : List Char) : List Char :=
  let s1 := replaceChar '\n' ' ' s
  let s2 := replaceChar '*' '°' s1
  let s3 := replaceChar '/' '\'' s2
  let s4 := replaceChar ',' '.' s3
  let s5 := collapseDoubleSpace s4
  let s6 := squashRuns allowedChar ' ' s5
  squashRuns (fun c => ¬ pyIsSpace c) ' ' s6

/-! ## Python `float()` on captured substrings -/

/-- Numeric value of a digit string (empty string contributes 0, as the
integer part of ".5"-shaped literals). -/
def natOfDigits (ds : List Char) : ℚ :=
  ds.foldl (fun acc c => 10 * acc + (c.toNat - '0'.toNat : ℕ)) 0

/-- Fractional value of a digit string read after the decimal point. -/
def fracOfDigits (ds : List Char) : ℚ :=
  natOfDigits ds / 10 ^ ds.length

/-- The unsigned part of a Python float literal: digits, optionally a dot
followed by digits, at least one digit in total; anything else raises. -/
def pyFloatUnsigned (s : List Char) : Option ℚ :=
  let intPart := s.takeWhile Char.isDigit
  let rest := s.dropWhile Char.isDigit
  match rest with
  | [] => if intPart.isEmpty then none else some (natOfDigits intPart)
  | c :: frac =>
    if c = '.' then
      if frac.all Char.isDigit ∧ (intPart ≠ [] ∨ frac ≠ []) then
        some (natOfDigits intPart + fracOfDigits frac)
      else none
    else none

/-- Python `float(s)` restricted to the alphabet the coordinate captures can
contain (sign, digits, one dot): `none` models a raised `ValueError`, which
the source catches and turns into a parse failure. -/
def pyFloat (s : List Char) : Option ℚ :=
  match s with
  | c :: rest =>
    if c = '-' then (pyFloatUnsigned rest).map Neg.neg
    else if c = '+' then pyFloatUnsigned rest
    else pyFloatUnsigned s
  | [] => pyFloatUnsigned []

/-! ## The three coordinate patterns (ocr.py lines 46-57 and 124-126) -/

/-- `[°\s]` -/
def degSep (c : Char) : Bool := c = '°' ∨ pyIsSpace c

/-- `[\s'"]` -/
def minSep (c : Char) : Bool := pyIsSpace c ∨ c = '\'' ∨ c = '"'

/-- `["\s]` -/
def secSep (c : Char) : Bool := c = '"' ∨ pyIsSpace c

/-- `[NS]` under IGNORECASE. -/
def latHem (c : Char) : Bool := c = 'N' ∨ c = 'S' ∨ c = 'n' ∨ c = 's'

/-- `[EW]` under IGNORECASE. -/
def lonHem (c : Char) : Bool := c = 'E' ∨ c = 'W' ∨ c = 'e' ∨ c = 'w'

/-- The optional seconds group `(\d{1,2}(?:\.\d+)?)?`: greedy digits, then a
greedily-optional `.\d+` extension, the whole group optional. -/
def secondsOpt {α : Type} (s : List Char)
    (k : Option (List Char) → List Char → Option α) : Option α :=
  (chomp Char.isDigit 1 2 s fun ds r =>
    (match r with
     | '.' :: r2 =>
       (chomp Char.isDigit 1 r2.length r2 fun fs r3 =>
         k (some (ds ++ '.' :: fs)) r3).orElse fun _ => k (some ds) r
     | _ => k (some ds) r)).orElse fun _ => k none s

/-- Captures of the DMS regex `coord_regex` (ocr.py 46-50). -/
structure DMSGroups where
  g1 : List Char
  g2 : List Char
  g3 : Option (List Char)
  g4 : Char
  g5 : List Char
  g6 : List Char
  g7 : Option (List Char)
  g8 : Char
deriving DecidableEq

/-- Anchored match of
`(\d{1,2})[°\s]?(\d{1,2})[\s\'"]?(\d{1,2}(?:\.\d+)?)?["\s]?([NS])`
`.*?(\d{1,3})[°\s]?(\d{1,2})[\s\'"]?(\d{1,2}(?:\.\d+)?)?["\s]?([EW])`
with IGNORECASE (ocr.py 46-50). -/
def matchDMSAt (s : List Char) : Option DMSGroups :=
  chomp Char.isDigit 1 2 s fun g1 r1 =>
  optClass degSep r1 fun r2 =>
  chomp Char.isDigit 1 2 r2 fun g2 r3 =>
  optClass minSep r3 fun r4 =>
  secondsOpt r4 fun g3 r5 =>
  optClass secSep r5 fun r6 =>
  oneClass latHem r6 fun g4 r7 =>
  lazyStar (fun r8 =>
    chomp Char.isDigit 1 3 r8 fun g5 r9 =>
    optClass degSep r9 fun r10 =>
    chomp Char.isDigit 1 2 r10 fun g6 r11 =>
    optClass minSep r11 fun r12 =>
    secondsOpt r12 fun g7 r13 =>
    optClass secSep r13 fun r14 =>
    oneClass lonHem r14 fun g8 _ =>
    some ⟨g1, g2, g3, g4, g5, g6, g7, g8⟩) r7

/-- Captures of the DDM regex `ddm_regex` (ocr.py 53-57). -/
structure DDMGroups where
  g1 : List Char
  g2 : List Char
  g3 : Char
  g4 : List Char
  g5 : List Char
  g6 : Char
deriving DecidableEq

/-- `[\d.]` -/
def digitDot (c : Char) : Bool := c.isDigit ∨ c = '.'

/-- Anchored match of
`(\d{1,2})[°\s]?([\d.]+)[\s\'"]?([NS]).*?(\d{1,3})[°\s]?([\d.]+)[\s\'"]?([EW])`
with IGNORECASE (ocr.py 53-57). -/
def matchDDMAt (s : List Char) : Option DDMGroups :=
  chomp Char.isDigit 1 2 s fun g1 r1 =>
  optClass degSep r1 fun r2 =>
  chomp digitDot 1 r2.length r2 fun g2 r3 =>
  optClass minSep r3 fun r4 =>
  oneClass latHem r4 fun g3 r5 =>
  lazyStar (fun r6 =>
    chomp Char.isDigit 1 3 r6 fun g4 r7 =>
    optClass degSep r7 fun r8 =>
    chomp digitDot 1 r8.length r8 fun g5 r9 =>
    optClass minSep r9 fun r10 =>
    oneClass lonHem r10 fun g6 _ =>
    some ⟨g1, g2, g3, g4, g5, g6⟩) r5

/-- The body `\d{1,mx}\.\d{4,}` of a DD number. -/
def ddNumBody {α : Type} (mx : ℕ) (s : List Char)
    (k : List Char → List Char → Option α) : Option α :=
  chomp Char.isDigit 1 mx s fun gi r =>
  match r with
  | '.' :: r2 =>
    chomp Char.isDigit 4 r2.length r2 fun gf r3 => k (gi ++ '.' :: gf) r3
  | _ => none

/-- `-?\d{1,mx}\.\d{4,}` capturing the signed numeral: the greedy `-?`
consumes a present minus first; the alternative without it immediately fails
on the digit that a `-` is not, but is kept for fidelity. -/
def ddNum {α : Type} (mx : ℕ) (s : List Char)
    (k : List Char → List Char → Option α) : Option α :=
  match s with
  | '-' :: rest =>
    (ddNumBody mx rest fun g r => k ('-' :: g) r).orElse fun _ =>
      ddNumBody mx s k
  | _ => ddNumBody mx s k

/-- Anchored match of the DD fallback pattern
`(-?\d{1,2}\.\d{4,})\s*[NS]?[, ]\s*(-?\d{1,3}\.\d{4,})\s*[EW]?`
(ocr.py 124-126, compiled without IGNORECASE). -/
def matchDDAt (s : List Char) : Option (List Char × List Char) :=
  ddNum 2 s fun g1 r1 =>
  starClass pyIsSpace r1 fun r2 =>
  optClass (fun c => c = 'N' ∨ c = 'S') r2 fun r3 =>
  oneClass (fun c => c = ',' ∨ c = ' ') r3 fun _ r4 =>
  starClass pyIsSpace r4 fun r5 =>
  ddNum 3 r5 fun g2 r6 =>
  starClass pyIsSpace r6 fun r7 =>
  optClass (fun c => c = 'E' ∨ c = 'W') r7 fun _ =>
  some (g1, g2)

/-! ## The three conversion tiers of `_parse_gps_from_text` -/

/-- The range validation shared by all three tiers (ocr.py 79, 110, 133):
`-90 <= lat <= 90 and -180 <= lon <= 180`. -/
def inRange (la lo : ℚ) : Prop :=
  -90 ≤ la ∧ la ≤ 90 ∧ -180 ≤ lo ∧ lo ≤ 180

instance (la lo : ℚ) : Decidable (inRange la lo) := by
  unfold inRange
  infer_instance

/-- `float(match.group(n) or 0)` for the optional seconds captures. -/
def secVal : Option (List Char) → Option ℚ
  | none => some 0
  | some t => pyFloat t

/-- The DMS branch (ocr.py 61-90): convert the captures, negate on S/W,
reject when out of range; a failed numeric conversion is the caught
exception branch, also yielding `none`. -/
def dmsFromGroups (g : DMSGroups) : Option (ℚ × ℚ) :=
  match pyFloat g.g1, pyFloat g.g2, secVal g.g3,
        pyFloat g.g5, pyFloat g.g6, secVal g.g7 with
  | some latDeg, some latMin, some latSec,
    some lonDeg, some lonMin, some lonSec =>
    let latDd0 := latDeg + latMin / 60 + latSec / 3600
    let lonDd0 := lonDeg + lonMin / 60 + lonSec / 3600
    let latDd := if g.g4.toUpper = 'S' then -latDd0 else latDd0
    let lonDd := if g.g8.toUpper = 'W' then -lonDd0 else lonDd0
    if inRange latDd lonDd then some (latDd, lonDd) else none
  | _, _, _, _, _, _ => none

/-- The DDM branch (ocr.py 94-121); `[\d.]+` captures such as `1.2.3` make
`float` raise, which the source catches and turns into `none`. -/
def ddmFromGroups (g : DDMGroups) : Option (ℚ × ℚ) :=
  match pyFloat g.g1, pyFloat g.g2, pyFloat g.g4, pyFloat g.g5 with
  | some latDeg, some latMin, some lonDeg, some lonMin =>
    let latDd0 := latDeg + latMin / 60
    let lonDd0 := lonDeg + lonMin / 60
    let latDd := if g.g3.toUpper = 'S' then -latDd0 else latDd0
    let lonDd := if g.g6.toUpper = 'W' then -lonDd0 else lonDd0
    if inRange latDd lonDd then some (latDd, lonDd) else none
  | _, _, _, _ => none

/-- The DD branch (ocr.py 128-144). -/
def ddFromGroups (g : List Char × List Char) : Option (ℚ × ℚ) :=
  match pyFloat g.1, pyFloat g.2 with
  | some lat, some lon =>
    if inRange lat lon then some (lat, lon) else none
  | _, _ => none

/-- `_parse_gps_from_text` (src/core/ocr.py lines 27-145): normalise the
text, then try the DMS, DDM and DD tiers in order; a tier that matches
settles the outcome (a conversion failure or an out-of-range pair returns
`none` without trying later tiers, as the source's early `return None`). -/
def parseGpsFromText (text : String) : Option (ℚ × ℚ) :=
  let cleaned := cleanText text.data
  match searchAt matchDMSAt cleaned with
  | some g => dmsFromGroups g
  | none =>
    match searchAt matchDDMAt cleaned with
    | some g => ddmFromGroups g
    | none =>
      match searchAt matchDDAt cleaned with
      | some g => ddFromGroups g
      | none => none

/-! ## Coordinate normalisers -/

/-- `_convert_dms_to_dd` of src/core/exif.py (lines 46-51): the direction is
the raw `GPSLatitudeRef`/`GPSLongitudeRef` value, possibly absent (`None`),
in which case `direction in ["S","W"]` is false and no negation happens. -/
def exifConvertDmsToDd (degrees minutes seconds : ℚ)
    (direction : Option String) : ℚ :=
  let dd := degrees + minutes / 60 + seconds / 3600
  if direction = some "S" ∨ direction = some "W" then -dd else dd

/-- `_convert_dms_to_dd` of src/core/ocr.py (lines 148-149). -/
def ocrConvertDmsToDd (d m s : ℚ) (h : String) : ℚ :=
  (d + m / 60 + s / 3600) * (if h = "S" ∨ h = "W" then -1 else 1)

/-- `_convert_ddm_to_dd` of src/core/ocr.py (lines 152-153). -/
def ocrConvertDdmToDd (d dm : ℚ) (h : String) : ℚ :=
  (d + dm / 60) * (if h = "S" ∨ h = "W" then -1 else 1)

/-! ## EXIF GPS decoding (`extract_exif_data`, src/core/exif.py lines 82-104)

The GPS IFD values are PIL `IFDRational`s.  A PIL rational whose denominator
is zero carries the floating value NaN: `float()` on it returns NaN and does
not raise, and NaN propagates through the `+`, `/` and unary `-` of
`_convert_dms_to_dd`.  NaN is modelled as `Option.none` inside a coordinate
value, so a component value is an `Option ℚ` and conversion is
NaN-propagating. -/

/-- An EXIF rational as stored in the GPS IFD. -/
structure ExifRat where
  numr : ℤ
  denr : ℕ
deriving DecidableEq

/-- `float()` of a PIL rational: NaN (modelled `none`) when the denominator
is zero, the quotient otherwise. -/
def ExifRat.toVal (r : ExifRat) : Option ℚ :=
  if r.denr = 0 then none else some ((r.numr : ℚ) / (r.denr : ℚ))

/-- `_convert_dms_to_dd` (exif.py) applied to possibly-NaN floats: NaN in
any component poisons the result; the sign rule is as in the source. -/
def convertDmsToDdOpt (d m s : Option ℚ) (direction : Option String) :
    Option ℚ :=
  match d, m, s with
  | some a, some b, some c =>
    let dd := a + b / 60 + c / 3600
    some (if direction = some "S" ∨ direction = some "W" then -dd else dd)
  | _, _, _ => none

/-- A decoded `GPSLatitude`/`GPSLongitude` tag: three rationals
(degrees, minutes, seconds). -/
def GpsTriple := ExifRat × ExifRat × ExifRat

instance : DecidableEq GpsTriple := by
  unfold GpsTriple
  infer_instance

/-- The GPS block of `extract_exif_data` (exif.py lines 82-104): when both
tags are present and the *first* rational of each has a nonzero denominator,
convert and store both coordinates (each an `Option ℚ`, `none` inside being
NaN); otherwise store nothing.  The outer `none` means no `GPSLatitude` /
`GPSLongitude` keys are added to the decoded data.  The function is total:
under PIL rational semantics no exception escapes this block. -/
def gpsCoordinates (latDms lonDms : Option GpsTriple)
    (latRef lonRef : Option String) : Option (Option ℚ × Option ℚ) :=
  match latDms, lonDms with
  | some lat, some lon =>
    if lat.1.denr ≠ 0 ∧ lon.1.denr ≠ 0 then
      some (convertDmsToDdOpt lat.1.toVal lat.2.1.toVal lat.2.2.toVal latRef,
            convertDmsToDdOpt lon.1.toVal lon.2.1.toVal lon.2.2.toVal lonRef)
    else none
  | _, _ => none

/-! ## Preprocessing dispatch (src/core/preprocess.py) -/

/-- The measurements `analyze_image_characteristics` returns. -/
structure ImageCharacteristics where
  meanBrightness : ℚ
  stdBrightness : ℚ
  noise : ℚ
deriving DecidableEq

/-- The `auto` method selection of `preprocess_image` (preprocess.py
lines 31-41). -/
def chooseMethod (method : String) (ch : ImageCharacteristics) : String :=
  let m := method.toLower
  if m = "auto" then
    if ch.meanBrightness < 80 then "brighten"
    else if ch.noise > 100 then "denoise"
    else if ch.stdBrightness > 50 then "threshold"
    else "none"
  else m

/-- `os.path.basename` for forward-slash paths. -/
def baseName (p : String) : String :=
  match (p.splitOn "/").getLast? with
  | some b => b
  | none => p

/-- `preprocess_image` (preprocess.py lines 26-63), as far as its observable
result goes: the pixel transformations (cv2 calls selected by
`chooseMethod`) only affect the file written to the debug folder, never the
returned value; the function returns the debug path when `debug_folder` is
set and `None` otherwise (its final statement is `return None`). -/
def preprocessImage (imagePath method : String) (ch : ImageCharacteristics)
    (debugFolder : Option String) : Option String :=
  let _ := chooseMethod method ch
  match debugFolder with
  | some f => some (f ++ "/" ++ baseName imagePath)
  | none => none

/-- `ocr_input_path` of `extract_gps_with_ocr` (ocr.py lines 216-219):
the preprocessed path when one was produced, else the original image path. -/
def ocrInputPath (imagePath method : String) (ch : ImageCharacteristics)
    (debugFolder : Option String) : String :=
  match preprocessImage imagePath method ch debugFolder with
  | some p => p
  | none => imagePath

/-- The two OCR engines of `src/config.py`. -/
inductive OCREngine
  | easyocr
  | google
deriving DecidableEq

/-- The per-block parse loop of `extract_gps_with_ocr` (ocr.py lines
243-246): the first block yielding coordinates wins, returned together with
the raw matched block. -/
def firstParse : List String → Option (ℚ × ℚ × String)
  | [] => none
  | b :: rest =>
    match parseGpsFromText b with
    | some (la, lo) => some (la, lo, b)
    | none => firstParse rest

/-- `extract_gps_with_ocr` (ocr.py lines 203-251) with the engine backends
abstracted as oracles from the input path: EasyOCR yields a list of text
blocks or nothing, Google Vision a single full text or nothing.  The
preprocessed path substitutes the image path when available. -/
def extractGpsWithOcr (easyBlocks : String → Option (List String))
    (gcvText : String → Option String) (engine : OCREngine)
    (imagePath method : String) (ch : ImageCharacteristics)
    (debugFolder : Option String) : Option (ℚ × ℚ × String) :=
  let input := ocrInputPath imagePath method ch debugFolder
  let rawTextBlocks : List String :=
    match engine with
    | .easyocr => (easyBlocks input).getD []
    | .google =>
      match gcvText input with
      | some t => [t]
      | none => []
  firstParse rawTextBlocks

/-! ## The per-photo orchestration (src/workflows/gps_extraction.py) -/

/-- A value held in the per-photo `image_data` dictionary.  `pynone` is the
Python `None` that `extract_exif_data` stores for missing tags (and that
`dict.get` returns for an absent key); `nan` is an EXIF NaN coordinate. -/
inductive PyVal
  | pynone
  | num (q : ℚ)
  | nan
  | str (s : String)
deriving DecidableEq

/-- `image_data.get(k)`: the stored value, or `None` for an absent key. -/
def dget : List (String × PyVal) → String → PyVal
  | [], _ => .pynone
  | p :: d, k => if p.1 = k then p.2 else dget d k

/-- `image_data[k] = v` on an insertion-ordered dictionary: overwrite the
first (only) binding in place when the key exists, append otherwise. -/
def dset : List (String × PyVal) → String → PyVal → List (String × PyVal)
  | [], k, v => [(k, v)]
  | p :: d, k, v => if p.1 = k then (k, v) :: d else p :: dset d k v

/-- Python `value == 0.0` for a dictionary value: true only for the float
zero — `None == 0.0` and `nan == 0.0` are both false. -/
def eqZeroFloat : PyVal → Bool
  | .num q => q = 0
  | _ => false

/-- `gps_tags_present` (gps_extraction.py lines 80-82): either coordinate
value is not `None` — an *or*, not an *and*. -/
def gpsTagsPresent (d : List (String × PyVal)) : Bool :=
  dget d "lat" ≠ PyVal.pynone ∨ dget d "lon" ≠ PyVal.pynone

/-- `has_valid_gps` (gps_extraction.py lines 83-85). -/
def hasValidGps (d : List (String × PyVal)) : Bool :=
  gpsTagsPresent d ∧ ¬ (eqZeroFloat (dget d "lat") ∧ eqZeroFloat (dget d "lon"))

/-- The flags of `run_gps_extraction_workflow` that drive the per-photo
logic. -/
structure WorkflowFlags where
  ocrDisabled : Bool
  ocrEngine : OCREngine
  gcvFallback : Bool
  gcvLimit : ℤ
  noOcrOnInvalidGps : Bool
  includeFullPath : Bool
deriving DecidableEq

/-- One photo as the workflow sees it: its file name and path, the outcome
of `extract_exif_data` on it, and the outcomes the two OCR engines would
produce for it (oracles, since the engines are external). -/
structure PhotoInput where
  name : String
  path : String
  exifData : Option (List (String × PyVal))
  easyResult : Option (ℚ × ℚ × String)
  gcvResult : Option (ℚ × ℚ × String)

/-- What processing one photo produced: the finished record, the updated
Google Vision budget counter, whether a Google Vision call was attempted for
this photo, and whether the OCR fallback block was entered. -/
structure PhotoOutcome where
  record : List (String × PyVal)
  gcvCount : ℕ
  gcvAttempted : Bool
  fallbackRan : Bool

/-- The `maps_url` f-string (gps_extraction.py lines 168-170); the numeric
rendering is abstracted by `toString` on `ℚ`. -/
def mapsUrl (lat lon : PyVal) : String :=
  "https://www.google.com/maps/search/?api=1&query=" ++
    toString lat ++ "," ++ toString lon
where
  toString : PyVal → String
    | .num q => ToString.toString q
    | .nan => "nan"
    | .pynone => "None"
    | .str s => s

/-- The Google Vision budget gate (gps_extraction.py lines 105 and 135):
`gcv_limit == -1 or gcv_processed_count < gcv_limit`. -/
def gcvGate (limit : ℤ) (count : ℕ) : Bool :=
  limit = -1 ∨ (count : ℤ) < limit

/-- Whether the OCR fallback block (the `else` of lines 94-161) is entered:
no valid EXIF GPS, OCR not globally disabled, and not blocked by the
strict `no_ocr_on_invalid_gps` flag (which only applies when tags are
present, line 89). -/
def enterOcrB (fl : WorkflowFlags) (d : List (String × PyVal)) : Bool :=
  ¬ hasValidGps d ∧ ¬ fl.ocrDisabled ∧ ¬ (fl.noOcrOnInvalidGps ∧ gpsTagsPresent d)

/-- The tiered OCR dispatch of lines 96-151: Google as primary is gated by
the budget and the counter is incremented right after every attempted call
(line 113), successful or not; EasyOCR as primary is ungated; when the
primary was EasyOCR, yielded nothing and the fallback flag is on, Google is
tried under the same gate with the same post-call increment (line 146).
Returns (ocr result, new counter, whether a Google call was attempted). -/
def ocrStep (fl : WorkflowFlags) (count : ℕ) (enterOcr : Bool)
    (easy gcv : Option (ℚ × ℚ × String)) :
    Option (ℚ × ℚ × String) × ℕ × Bool :=
  if enterOcr then
    let t1 : Option (ℚ × ℚ × String) × ℕ × Bool :=
      if fl.ocrEngine = .google then
        if gcvGate fl.gcvLimit count then (gcv, count + 1, true)
        else (none, count, false)
      else (easy, count, false)
    if t1.1 = none ∧ fl.ocrEngine = .easyocr ∧ fl.gcvFallback then
      if gcvGate fl.gcvLimit t1.2.1 then (gcv, t1.2.1 + 1, true) else t1
    else t1
  else (none, count, false)

/-- Lines 153-161: on OCR success only `lat` and `lon` are stored in
`image_data`; the engine name and the raw matched text are interpolated
into a log message and discarded. -/
def applyOcrResult (r : Option (ℚ × ℚ × String))
    (d : List (String × PyVal)) : List (String × PyVal) :=
  match r with
  | some (la, lo, _) => dset (dset d "lat" (.num la)) "lon" (.num lo)
  | none => d

/-- Lines 164-173: row finalisation — `name` always, `maps_url` when both
coordinate values are set, `photo_path` when the full path was requested. -/
def finalizeRecord (d : List (String × PyVal)) (nm pth : String)
    (includeFullPath : Bool) : List (String × PyVal) :=
  let d1 := dset d "name" (.str nm)
  let d2 :=
    if dget d1 "lat" ≠ PyVal.pynone ∧ dget d1 "lon" ≠ PyVal.pynone then
      dset d1 "maps_url" (.str (mapsUrl (dget d1 "lat") (dget d1 "lon")))
    else d1
  if includeFullPath then dset d2 "photo_path" (.str pth) else d2

/-- The per-photo body of `run_gps_extraction_workflow` (gps_extraction.py
lines 73-173): EXIF extraction result in, validity check, tiered OCR under
the Google Vision budget, then row finalisation.  The OCR tier/engine and
the raw matched text are written to the log only (lines 156-159); the
source stores neither in `image_data`. -/
def processPhoto (fl : WorkflowFlags) (count : ℕ) (ph : PhotoInput) :
    PhotoOutcome :=
  let imageData := ph.exifData.getD []
  let enterOcr := enterOcrB fl imageData
  let t := ocrStep fl count enterOcr ph.easyResult ph.gcvResult
  ⟨finalizeRecord (applyOcrResult t.1 imageData) ph.name ph.path
      fl.includeFullPath,
   t.2.1, t.2.2, enterOcr⟩

/-- The photo loop of `run_gps_extraction_workflow` (lines 73-173): the
Google Vision counter threads through the photos in order. -/
def runPhotos (fl : WorkflowFlags) (count : ℕ) :
    List PhotoInput → List PhotoOutcome × ℕ
  | [] => ([], count)
  | ph :: rest =>
    let o := processPhoto fl count ph
    let (os, c) := runPhotos fl o.gcvCount rest
    (o :: os, c)

/-- `final_columns` (gps_extraction.py lines 181-188): the requested tag
names, with `name` prepended and `maps_url` appended when absent, and
`photo_path` appended when the full path is requested; `df.reindex` then
makes these exactly the columns of the written table. -/
def finalColumns (tags : List (String × String)) (includeFullPath : Bool) :
    List String :=
  let cols := tags.map Prod.fst
  let cols := if "name" ∈ cols then cols else "name" :: cols
  let cols := if "maps_url" ∈ cols then cols else cols ++ ["maps_url"]
  if includeFullPath then cols ++ ["photo_path"] else cols

/-! ## A DMS text renderer for the round-trip property -/

/-- Two-decimal-digit rendering of `n ≤ 99`. -/
def twoDigits (n : ℕ) : List Char :=
  [Nat.digitChar (n / 10), Nat.digitChar (n % 10)]

/-- Three-decimal-digit rendering of `n ≤ 999`. -/
def threeDigits (n : ℕ) : List Char :=
  [Nat.digitChar (n / 100), Nat.digitChar (n / 10 % 10), Nat.digitChar (n % 10)]

/-- Modelled from the spec: the repository contains no DMS text formatter —
the round-trip testable property speaks of "formatting as DMS text" without
providing one.  This renderer writes the standard degree–minute–second
notation the parser's DMS tier recognises, with the hemisphere letter after
each group (the placement `coord_regex` requires), seconds truncated to
centiseconds: `DD°MM'SS.CC"H`. -/
def formatAxisDMS (x : ℚ) (degDigits : ℕ → List Char) (pos neg : Char) :
    List Char :=
  let hem : Char := if x < 0 then neg else pos
  let n : ℕ := (⌊|x| * 360000⌋).toNat
  let d := n / 360000
  let m := n / 6000 % 60
  let s := n % 6000 / 100
  let f := n % 100
  degDigits d ++ '°' :: (twoDigits m ++ '\'' ::
    (twoDigits s ++ '.' :: (twoDigits f ++ '"' :: [hem])))

/-- Modelled from the spec: DMS text for a (lat, lon) pair — latitude with
N/S, longitude with E/W, separated by a space. -/
def formatDMS (lat lon : ℚ) : String :=
  ⟨formatAxisDMS lat twoDigits 'N' 'S' ++ ' ' ::
    formatAxisDMS lon threeDigits 'E' 'W'⟩

/-! ## Helper lemmas: the range guard of each parsing tier -/

theorem guarded_range {a b la lo : ℚ}
    (h : (if inRange a b then some (a, b) else none) = some (la, lo)) :
    inRange la lo := by
  split at h
  · obtain ⟨rfl, rfl⟩ : a = la ∧ b = lo := by simpa using h
    assumption
  · cases h

theorem dmsFromGroups_range {g : DMSGroups} {la lo : ℚ}
    (h : dmsFromGroups g = some (la, lo)) : inRange la lo := by
  unfold dmsFromGroups at h
  split at h
  · exact guarded_range h
  · cases h

theorem ddmFromGroups_range {g : DDMGroups} {la lo : ℚ}
    (h : ddmFromGroups g = some (la, lo)) : inRange la lo := by
  unfold ddmFromGroups at h
  split at h
  · exact guarded_range h
  · cases h

theorem ddFromGroups_range {g : List Char × List Char} {la lo : ℚ}
    (h : ddFromGroups g = some (la, lo)) : inRange la lo := by
  unfold ddFromGroups at h
  split at h
  · exact guarded_range h
  · cases h

theorem parseGpsFromText_range {text : String} {la lo : ℚ}
    (h : parseGpsFromText text = some (la, lo)) : inRange la lo := by
  unfold parseGpsFromText at h
  rcases h1 : searchAt matchDMSAt (cleanText text.data) with _ | g1
  · rcases h2 : searchAt matchDDMAt (cleanText text.data) with _ | g2
    · rcases h3 : searchAt matchDDAt (cleanText text.data) with _ | g3
      · simp only [h1, h2, h3] at h
        cases h
      · simp only [h1, h2, h3] at h
        exact ddFromGroups_range h
    · simp only [h1, h2] at h
      exact ddmFromGroups_range h
  · simp only [h1] at h
    exact dmsFromGroups_range h

/-! ## Helper lemmas: the per-photo dictionary -/

theorem dget_dset_self (d : List (String × PyVal)) (k : String) (v : PyVal) :
    dget (dset d k v) k = v := by
  induction d with
  | nil => simp [dset, dget]
  | cons p rest ih =>
    by_cases h : p.1 = k
    · simp [dset, dget, h]
    · simp [dset, dget, h, ih]

theorem dget_dset_ne (d : List (String × PyVal)) {k k' : String} (v : PyVal)
    (hne : k' ≠ k) : dget (dset d k v) k' = dget d k' := by
  have hk : ¬ k = k' := fun h => hne h.symm
  induction d with
  | nil => simp [dset, dget, hk]
  | cons p rest ih =>
    by_cases h : p.1 = k
    · have hp : ¬ p.1 = k' := by rw [h]; exact hk
      simp [dset, dget, h, hk, hp]
    · simp [dset, dget, h, ih]

theorem dset_keys_sub {d : List (String × PyVal)} {k : String} {v : PyVal}
    {L : List String} (hd : ∀ x ∈ d.map Prod.fst, x ∈ L) (hk : k ∈ L) :
    ∀ x ∈ (dset d k v).map Prod.fst, x ∈ L := by
  induction d with
  | nil =>
    intro x hx
    simp [dset] at hx
    exact hx ▸ hk
  | cons p rest ih =>
    intro x hx
    by_cases h : p.1 = k
    · simp only [dset, if_pos h, List.map_cons, List.mem_cons] at hx
      rcases hx with rfl | hx
      · exact hk
      · exact hd x (by simp only [List.map_cons, List.mem_cons]; exact Or.inr hx)
    · simp only [dset, if_neg h, List.map_cons, List.mem_cons] at hx
      rcases hx with rfl | hx
      · exact hd p.1 (by simp)
      · exact ih
          (fun y hy => hd y
            (by simp only [List.map_cons, List.mem_cons]; exact Or.inr hy))
          x hx

theorem processPhoto_fallbackRan (fl : WorkflowFlags) (count : ℕ)
    (ph : PhotoInput) :
    (processPhoto fl count ph).fallbackRan =
      enterOcrB fl (ph.exifData.getD []) := rfl

theorem processPhoto_gcvCount (fl : WorkflowFlags) (count : ℕ)
    (ph : PhotoInput) :
    (processPhoto fl count ph).gcvCount =
      (ocrStep fl count (enterOcrB fl (ph.exifData.getD []))
        ph.easyResult ph.gcvResult).2.1 := rfl

theorem processPhoto_gcvAttempted (fl : WorkflowFlags) (count : ℕ)
    (ph : PhotoInput) :
    (processPhoto fl count ph).gcvAttempted =
      (ocrStep fl count (enterOcrB fl (ph.exifData.getD []))
        ph.easyResult ph.gcvResult).2.2 := rfl

theorem ocrStep_attempted_count (fl : WorkflowFlags) (count : ℕ) (b : Bool)
    (easy gcv : Option (ℚ × ℚ × String))
    (h : (ocrStep fl count b easy gcv).2.2 = true) :
    (ocrStep fl count b easy gcv).2.1 = count + 1 := by
  unfold ocrStep at h ⊢
  rcases b with _ | _ <;>
    rcases hoe : fl.ocrEngine with _ | _ <;>
      rcases hg : gcvGate fl.gcvLimit count with _ | _ <;>
        rcases hf : fl.gcvFallback with _ | _ <;>
          rcases easy with _ | _ <;> simp_all

theorem ocrStep_gate_closed (fl : WorkflowFlags) (count : ℕ) (b : Bool)
    (easy gcv : Option (ℚ × ℚ × String)) (h1 : fl.gcvLimit ≠ -1)
    (h2 : fl.gcvLimit ≤ (count : ℤ)) :
    (ocrStep fl count b easy gcv).2.2 = false := by
  have hg : gcvGate fl.gcvLimit count = false := by
    simp only [gcvGate, decide_eq_false_iff_not]
    push_neg
    exact ⟨h1, by omega⟩
  unfold ocrStep
  rcases b with _ | _ <;>
    rcases hoe : fl.ocrEngine with _ | _ <;>
      rcases hf : fl.gcvFallback with _ | _ <;>
        rcases easy with _ | _ <;> simp_all

/-! ## Claim C1: the range invariant of the text parser -/

/-- C1: every coordinate pair the text coordinate parser returns satisfies
−90 ≤ latitude ≤ 90 and −180 ≤ longitude ≤ 180 — each tier guards its
conversion with the range check and returns `none` on failure rather than
raising; in particular, on a text whose latitude group reads 95 the DMS
pattern matches syntactically, yet the parser returns `none`. -/
theorem parser_range_invariant :
    (∀ (text : String) (la lo : ℚ), parseGpsFromText text = some (la, lo) →
      -90 ≤ la ∧ la ≤ 90 ∧ -180 ≤ lo ∧ lo ≤ 180) ∧
    parseGpsFromText "95°30'00\"N 110°30'00\"E" = none ∧
    (searchAt matchDMSAt (cleanText ("95°30'00\"N 110°30'00\"E".data))).isSome
      = true :=
  ⟨fun _ _ _ h => parseGpsFromText_range h,
   by with_unfolding_all rfl,
   by with_unfolding_all rfl⟩

/-- Witness for C1: the parser succeeds on a concrete in-range text and the
invariant instantiates there. -/
theorem parser_range_invariant_witness :
    -90 ≤ (-21/2 : ℚ) ∧ (-21/2 : ℚ) ≤ 90 ∧
      -180 ≤ (221/2 : ℚ) ∧ (221/2 : ℚ) ≤ 180 :=
  parser_range_invariant.1 "10°30'00\"S 110°30'00\"E" (-21/2) (221/2)
    (by with_unfolding_all rfl)

/-! ## Claim C3: the DMS tier on the canonical example -/

/-- C3 counterexample: on the spec's example text, which writes the
hemisphere letters *before* the numeric groups, the parser returns `none` —
`coord_regex` and `ddm_regex` both demand the hemisphere letter after the
numbers, and the DD tier needs decimals with four fractional digits — so
the claimed result (−10.5, 110.5) is not produced. -/
theorem parser_prefix_hemisphere_counterexample :
    parseGpsFromText "S10°30'00\" E110°30'00\"" = none := by
  with_unfolding_all rfl

/-- C3 (amended): with the hemisphere letters written after each group, the
otherwise identical text parses to (−10.5, 110.5), matched at the DMS tier
(the DMS search on the normalised text succeeds, and it is the DMS
conversion that yields the pair). -/
theorem parser_dms_suffix_example :
    parseGpsFromText "10°30'00\"S 110°30'00\"E" = some (-21/2, 221/2) ∧
    (searchAt matchDMSAt (cleanText ("10°30'00\"S 110°30'00\"E".data))).isSome
      = true := by
  constructor
  · with_unfolding_all rfl
  · with_unfolding_all rfl

/-! ## Claim C4: the DD tier and the comma delimiter -/

/-- C4: the normalisation step replaces every comma by a period *before*
the DD pattern — whose delimiter class `[, ]` still lists the comma — runs,
so the spec's comma-delimited example cannot match any tier and the parser
returns `none`; the same numbers separated by a space do parse at the DD
tier.  The middle conjunct exhibits the normalisation that kills the comma
match. -/
theorem parser_dd_comma_divergence :
    parseGpsFromText "10.123456,110.654321" = none ∧
    cleanText ("10.123456,110.654321".data) = "10.123456.110.654321".data ∧
    parseGpsFromText "10.123456 110.654321" =
      some (10123456/1000000, 110654321/1000000) := by
  refine ⟨?_, ?_, ?_⟩
  · with_unfolding_all rfl
  · with_unfolding_all rfl
  · with_unfolding_all rfl

/-! ## Claim C5: the numeric converters -/

/-- C5: `_convert_dms_to_dd` (exif.py) computes degrees + minutes/60 +
seconds/3600 and `_convert_ddm_to_dd` (ocr.py) computes degrees +
decimal_minutes/60, each negated exactly when the hemisphere is S or W; in
particular DMS(10, 30, 0, S) = −10.5 and DDM(10, 30.0, N) = 10.5. -/
theorem converter_formulas :
    (∀ (d m s : ℚ) (dir : Option String),
        exifConvertDmsToDd d m s dir =
          if dir = some "S" ∨ dir = some "W" then -(d + m / 60 + s / 3600)
          else d + m / 60 + s / 3600) ∧
    (∀ (d dm : ℚ) (hem : String),
        ocrConvertDdmToDd d dm hem =
          if hem = "S" ∨ hem = "W" then -(d + dm / 60) else d + dm / 60) ∧
    exifConvertDmsToDd 10 30 0 (some "S") = -21/2 ∧
    ocrConvertDdmToDd 10 30 "N" = 21/2 := by
  refine ⟨?_, ?_, ?_, ?_⟩
  · intro d m s dir
    unfold exifConvertDmsToDd
    split
    · rfl
    · rfl
  · intro d dm hem
    unfold ocrConvertDdmToDd
    split
    · ring
    · ring
  · with_unfolding_all rfl
  · with_unfolding_all rfl

/-! ## Claim C6: zero-denominator EXIF rationals -/

/-- C6 counterexample: a zero denominator in the *minutes* rational of the
latitude is not caught by the guard of exif.py line 87, which checks only
the first (degrees) rational of each axis; the decoder then emits GPS
entries for the photo — the latitude being NaN (a PIL rational with zero
denominator converts to NaN without raising) — instead of emitting no
coordinate. -/
theorem exif_zero_denominator_counterexample :
    gpsCoordinates (some (⟨10, 1⟩, ⟨30, 0⟩, ⟨0, 1⟩))
        (some (⟨110, 1⟩, ⟨30, 1⟩, ⟨0, 1⟩)) (some "S") (some "E")
      = some (none, some (221/2)) := by
  with_unfolding_all rfl

/-- C6 (amended): a zero denominator in the *degrees* rational of either
axis makes the decoder emit no GPS coordinate; the decoding block is a
total function, so it returns normally in every case (no exception escapes
— zero denominators elsewhere yield NaN values rather than raising). -/
theorem exif_zero_denominator_degrees :
    ∀ (lat lon : GpsTriple) (latRef lonRef : Option String),
      lat.1.denr = 0 ∨ lon.1.denr = 0 →
      gpsCoordinates (some lat) (some lon) latRef lonRef = none := by
  intro lat lon latRef lonRef h
  unfold gpsCoordinates
  rcases h with h | h
  · simp [h]
  · simp [h]

/-- Witness for C6 (amended): a concrete zero-denominator degrees rational. -/
theorem exif_zero_denominator_degrees_witness :
    gpsCoordinates (some (⟨10, 0⟩, ⟨30, 1⟩, ⟨0, 1⟩))
        (some (⟨110, 1⟩, ⟨30, 1⟩, ⟨0, 1⟩)) none none = none :=
  exif_zero_denominator_degrees (⟨10, 0⟩, ⟨30, 1⟩, ⟨0, 1⟩)
    (⟨110, 1⟩, ⟨30, 1⟩, ⟨0, 1⟩) none none (Or.inl rfl)

/-! ## Helper lemmas: record finalisation -/

theorem processPhoto_record (fl : WorkflowFlags) (count : ℕ)
    (ph : PhotoInput) :
    (processPhoto fl count ph).record =
      finalizeRecord
        (applyOcrResult
          (ocrStep fl count (enterOcrB fl (ph.exifData.getD []))
            ph.easyResult ph.gcvResult).1
          (ph.exifData.getD []))
        ph.name ph.path fl.includeFullPath := rfl

theorem dget_finalizeRecord (d : List (String × PyVal)) (nm pth : String)
    (inc : Bool) {k : String} (h1 : k ≠ "name") (h2 : k ≠ "maps_url")
    (h3 : k ≠ "photo_path") :
    dget (finalizeRecord d nm pth inc) k = dget d k := by
  unfold finalizeRecord
  dsimp only
  split
  · rw [dget_dset_ne _ _ h3]
    split
    · rw [dget_dset_ne _ _ h2, dget_dset_ne _ _ h1]
    · rw [dget_dset_ne _ _ h1]
  · split
    · rw [dget_dset_ne _ _ h2, dget_dset_ne _ _ h1]
    · rw [dget_dset_ne _ _ h1]

theorem finalizeRecord_keys_sub {d : List (String × PyVal)} {L : List String}
    (hd : ∀ x ∈ d.map Prod.fst, x ∈ L) (hn : "name" ∈ L)
    (hm : "maps_url" ∈ L) (hp : "photo_path" ∈ L) (nm pth : String)
    (inc : Bool) :
    ∀ x ∈ (finalizeRecord d nm pth inc).map Prod.fst, x ∈ L := by
  unfold finalizeRecord
  dsimp only
  split
  · refine dset_keys_sub ?_ hp
    split
    · exact dset_keys_sub (dset_keys_sub hd hn) hm
    · exact dset_keys_sub hd hn
  · split
    · exact dset_keys_sub (dset_keys_sub hd hn) hm
    · exact dset_keys_sub hd hn

theorem applyOcrResult_keys_sub {d : List (String × PyVal)} {L : List String}
    (hd : ∀ x ∈ d.map Prod.fst, x ∈ L) (hlat : "lat" ∈ L)
    (hlon : "lon" ∈ L) (r : Option (ℚ × ℚ × String)) :
    ∀ x ∈ (applyOcrResult r d).map Prod.fst, x ∈ L := by
  unfold applyOcrResult
  split
  · exact dset_keys_sub (dset_keys_sub hd hlat) hlon
  · exact hd

/-! ## Claim C7: the orchestrator validity check -/

/-- C7 counterexample: a photo whose EXIF carries only a latitude
(longitude `None`) — the `or` of gps_extraction.py line 81 makes the tags
count as present, the (0.0, 0.0) check cannot fire against `None`, so the
coordinate counts as *valid* and the OCR fallback block is not entered,
where the claim demands both values be present for validity and fallback
otherwise. -/
theorem orchestrator_validity_counterexample :
    hasValidGps [("lat", PyVal.num 5), ("lon", PyVal.pynone)] = true ∧
    (processPhoto ⟨false, .easyocr, false, -1, false, false⟩ 0
        ⟨"a.jpg", "/p/a.jpg",
         some [("lat", PyVal.num 5), ("lon", PyVal.pynone)],
         none, none⟩).fallbackRan = false := by
  constructor
  · with_unfolding_all rfl
  · with_unfolding_all rfl

/-- C7 (amended): the orchestrator counts a metadata coordinate as valid
iff at least *one* of latitude/longitude is present (not `None`) and the
pair is not exactly (0.0, 0.0).  Consequently an exact (0.0, 0.0) pair is
treated as absent and triggers the OCR fallback whenever OCR is enabled and
the strict `no_ocr_on_invalid_gps` flag is off, while a photo carrying only
one of the two values counts as valid and never enters the fallback. -/
theorem orchestrator_validity_amended :
    (∀ d : List (String × PyVal),
        hasValidGps d = true ↔
          gpsTagsPresent d = true ∧
            ¬ (eqZeroFloat (dget d "lat") = true ∧
                eqZeroFloat (dget d "lon") = true)) ∧
    (∀ (fl : WorkflowFlags) (count : ℕ) (ph : PhotoInput)
        (d : List (String × PyVal)),
        ph.exifData = some d → dget d "lat" = PyVal.num 0 →
        dget d "lon" = PyVal.num 0 → fl.ocrDisabled = false →
        fl.noOcrOnInvalidGps = false →
        (processPhoto fl count ph).fallbackRan = true) ∧
    (∀ (fl : WorkflowFlags) (count : ℕ) (ph : PhotoInput)
        (d : List (String × PyVal)) (q : ℚ),
        ph.exifData = some d → dget d "lat" = PyVal.num q →
        dget d "lon" = PyVal.pynone →
        (processPhoto fl count ph).fallbackRan = false) := by
  refine ⟨fun d => ?_, ?_, ?_⟩
  case refine_1 =>
    cases h1 : eqZeroFloat (dget d "lat") <;>
      cases h2 : eqZeroFloat (dget d "lon") <;>
        cases h3 : gpsTagsPresent d <;>
          simp [hasValidGps, h1, h2, h3]
  · intro fl count ph d hexif hlat hlon hdis hstrict
    rw [processPhoto_fallbackRan, hexif]
    unfold enterOcrB hasValidGps gpsTagsPresent
    simp [hlat, hlon, hdis, hstrict, eqZeroFloat]
  · intro fl count ph d q hexif hlat hlon
    rw [processPhoto_fallbackRan, hexif]
    unfold enterOcrB hasValidGps gpsTagsPresent
    simp [hlat, hlon, eqZeroFloat]

/-- Witness for C7 (amended): an exact (0.0, 0.0) EXIF pair triggers the
fallback. -/
theorem orchestrator_validity_amended_witness :
    (processPhoto ⟨false, .easyocr, false, -1, false, false⟩ 0
        ⟨"a.jpg", "/p/a.jpg",
         some [("lat", PyVal.num 0), ("lon", PyVal.num 0)],
         none, none⟩).fallbackRan = true :=
  orchestrator_validity_amended.2.1 _ 0 _
    [("lat", PyVal.num 0), ("lon", PyVal.num 0)] rfl
    (by with_unfolding_all rfl) (by with_unfolding_all rfl) rfl rfl

/-! ## Claim C8: the Google Vision budget -/

/-- C8: the budget counter is incremented on every attempted Google Vision
call — successful or not, primary or fallback tier — and once a finite
ceiling (anything but the −1 sentinel) is reached the remote call is
skipped entirely for that photo; with a ceiling of 1 and two photos both
requiring the remote fallback, processed in order, the first photo's remote
call is attempted and the second photo's is skipped. -/
theorem gcv_budget :
    (∀ (fl : WorkflowFlags) (count : ℕ) (ph : PhotoInput),
        (processPhoto fl count ph).gcvAttempted = true →
        (processPhoto fl count ph).gcvCount = count + 1) ∧
    (∀ (fl : WorkflowFlags) (count : ℕ) (ph : PhotoInput),
        fl.gcvLimit ≠ -1 → fl.gcvLimit ≤ (count : ℤ) →
        (processPhoto fl count ph).gcvAttempted = false) ∧
    (runPhotos ⟨false, .easyocr, true, 1, false, false⟩ 0
        [⟨"a.jpg", "/p/a.jpg", none, none, none⟩,
         ⟨"b.jpg", "/p/b.jpg", none, none, none⟩]).1.map
        PhotoOutcome.gcvAttempted = [true, false] ∧
    (runPhotos ⟨false, .easyocr, true, 1, false, false⟩ 0
        [⟨"a.jpg", "/p/a.jpg", none, none, none⟩,
         ⟨"b.jpg", "/p/b.jpg", none, none, none⟩]).2 = 1 := by
  refine ⟨?_, ?_, ?_, ?_⟩
  · intro fl count ph h
    rw [processPhoto_gcvAttempted] at h
    rw [processPhoto_gcvCount]
    exact ocrStep_attempted_count fl count _ _ _ h
  · intro fl count ph h1 h2
    rw [processPhoto_gcvAttempted]
    exact ocrStep_gate_closed fl count _ _ _ h1 h2
  · with_unfolding_all rfl
  · with_unfolding_all rfl

/-- Witness for C8: a photo that needs Google as primary with an unbounded
budget is attempted, and the counter steps from 0 to 1. -/
theorem gcv_budget_witness :
    (processPhoto ⟨false, .google, false, -1, false, false⟩ 0
        ⟨"a.jpg", "/p/a.jpg", none, none, none⟩).gcvCount = 0 + 1 :=
  gcv_budget.1 _ 0 _ (by with_unfolding_all rfl)

/-! ## Claim C9: provenance in the output record -/

/-- C9 counterexample: a photo resolved through OCR with raw matched text
"RAW" — the finished record's keys are exactly the EXIF-requested fields
plus `lat`, `lon`, `name`, `maps_url` and `photo_path`; no
`coordinate_source` field exists, no stored value equals the raw matched
text, and the written columns carry no provenance either, where the claim
demands both a `coordinate_source` value and the raw matched text in the
output record. -/
theorem record_no_provenance_counterexample :
    ((processPhoto ⟨false, .easyocr, false, -1, false, true⟩ 0
        ⟨"a.jpg", "/p/a.jpg", some [("lat", .pynone), ("lon", .pynone)],
         some (5, 6, "RAW"), none⟩).record.map Prod.fst
      = ["lat", "lon", "name", "maps_url", "photo_path"]) ∧
    ((processPhoto ⟨false, .easyocr, false, -1, false, true⟩ 0
        ⟨"a.jpg", "/p/a.jpg", some [("lat", .pynone), ("lon", .pynone)],
         some (5, 6, "RAW"), none⟩).record.all
        (fun p => p.2 ≠ PyVal.str "RAW")) = true ∧
    finalColumns [("lat", "GPSLatitude"), ("lon", "GPSLongitude")] true
      = ["name", "lat", "lon", "maps_url", "photo_path"] := by
  refine ⟨?_, ?_, ?_⟩
  · with_unfolding_all rfl
  · with_unfolding_all rfl
  · with_unfolding_all rfl

/-- C9 (amended): when a recognition engine produced the coordinate, the
record holds the latitude and longitude it returned, but the producing
tier and the raw matched text are only logged: the record's keys always
stay within the EXIF-requested fields plus `lat`, `lon`, `name`,
`maps_url` and `photo_path`, so no `coordinate_source` or raw-text field
is ever added. -/
theorem record_schema_amended :
    (∀ (fl : WorkflowFlags) (count : ℕ) (ph : PhotoInput) (la lo : ℚ)
        (raw : String),
        (ocrStep fl count (enterOcrB fl (ph.exifData.getD []))
            ph.easyResult ph.gcvResult).1 = some (la, lo, raw) →
        dget (processPhoto fl count ph).record "lat" = PyVal.num la ∧
        dget (processPhoto fl count ph).record "lon" = PyVal.num lo) ∧
    (∀ (fl : WorkflowFlags) (count : ℕ) (ph : PhotoInput) (k : String),
        k ∈ (processPhoto fl count ph).record.map Prod.fst →
        k ∈ (ph.exifData.getD []).map Prod.fst ++
          ["lat", "lon", "name", "maps_url", "photo_path"]) := by
  constructor
  · intro fl count ph la lo raw h
    rw [processPhoto_record, h]
    constructor
    · rw [dget_finalizeRecord _ _ _ _ (by decide) (by decide) (by decide)]
      unfold applyOcrResult
      rw [dget_dset_ne _ _ (by decide), dget_dset_self]
    · rw [dget_finalizeRecord _ _ _ _ (by decide) (by decide) (by decide)]
      unfold applyOcrResult
      rw [dget_dset_self]
  · intro fl count ph k hk
    rw [processPhoto_record] at hk
    refine finalizeRecord_keys_sub
      (applyOcrResult_keys_sub (fun x hx => List.mem_append_left _ hx)
        (by simp) (by simp) _)
      (by simp) (by simp) (by simp) _ _ _ k hk

/-- Witness for C9 (amended): the OCR result of the counterexample photo is
recorded as its `lat` and `lon`. -/
theorem record_schema_amended_witness :
    dget (processPhoto ⟨false, .easyocr, false, -1, false, true⟩ 0
        ⟨"a.jpg", "/p/a.jpg", some [("lat", .pynone), ("lon", .pynone)],
         some (5, 6, "RAW"), none⟩).record "lat" = PyVal.num 5 ∧
    dget (processPhoto ⟨false, .easyocr, false, -1, false, true⟩ 0
        ⟨"a.jpg", "/p/a.jpg", some [("lat", .pynone), ("lon", .pynone)],
         some (5, 6, "RAW"), none⟩).record "lon" = PyVal.num 6 :=
  record_schema_amended.1 _ 0 _ 5 6 "RAW" (by with_unfolding_all rfl)

/-! ## Claim C10: preprocessing without a debug folder -/

/-- C10: with no debug folder configured, `preprocess_image` returns `None`
for every image path and preprocessing method — its only non-`None` return
is the debug path — so `extract_gps_with_ocr` runs the configured engine on
the original, unprocessed image path. -/
theorem preprocess_none_debug :
    (∀ (path method : String) (ch : ImageCharacteristics),
        preprocessImage path method ch none = none) ∧
    (∀ (path method : String) (ch : ImageCharacteristics),
        ocrInputPath path method ch none = path) ∧
    (∀ (easy : String → Option (List String)) (gcv : String → Option String)
        (path method : String) (ch : ImageCharacteristics),
        extractGpsWithOcr easy gcv .easyocr path method ch none =
          firstParse ((easy path).getD []) ∧
        extractGpsWithOcr easy gcv .google path method ch none =
          firstParse
            (match gcv path with
             | some t => [t]
             | none => [])) :=
  ⟨fun _ _ _ => rfl, fun _ _ _ => rfl, fun _ _ _ _ _ => ⟨rfl, rfl⟩⟩

/-! ## Helper lemmas towards the DMS round trip (C2): digit characters,
`pyFloat` on rendered numerals, normalisation fixpoints, matcher runs on
the rendered shape -/

theorem digitChar_spec (k : ℕ) (hk : k < 10) :
    (Nat.digitChar k).isDigit = true ∧ allowedChar (Nat.digitChar k) = true ∧
      pyIsSpace (Nat.digitChar k) = false ∧
      ((Nat.digitChar k).toNat - '0'.toNat : ℕ) = k := by
  interval_cases k <;> exact ⟨rfl, rfl, rfl, rfl⟩

theorem isDigit_ne (c : Char) (h : c.isDigit = true) :
    c ≠ '-' ∧ c ≠ '+' ∧ c ≠ '.' ∧ c ≠ '°' ∧ c ≠ '\'' ∧ c ≠ '"' ∧ c ≠ ' ' := by
  refine ⟨?_, ?_, ?_, ?_, ?_, ?_, ?_⟩ <;>
    (rintro rfl; exact absurd h (by decide))

theorem natOfDigits_two (x y : Char) :
    natOfDigits [x, y] =
      10 * ((x.toNat - '0'.toNat : ℕ) : ℚ) + ((y.toNat - '0'.toNat : ℕ) : ℚ) := by
  simp [natOfDigits]

theorem natOfDigits_three (x y z : Char) :
    natOfDigits [x, y, z] =
      100 * ((x.toNat - '0'.toNat : ℕ) : ℚ) +
        10 * ((y.toNat - '0'.toNat : ℕ) : ℚ) +
        ((z.toNat - '0'.toNat : ℕ) : ℚ) := by
  simp [natOfDigits]
  ring

theorem pyFloat_twoDigits (n : ℕ) (hn : n ≤ 99) :
    pyFloat (twoDigits n) = some (n : ℚ) := by
  obtain ⟨hd1, -, -, hv1⟩ := digitChar_spec (n / 10) (by omega)
  obtain ⟨hd2, -, -, hv2⟩ := digitChar_spec (n % 10) (by omega)
  obtain ⟨hm1, hp1, -⟩ := isDigit_ne _ hd1
  unfold twoDigits pyFloat pyFloatUnsigned
  simp only [List.takeWhile_cons, hd1, hd2, List.dropWhile_cons,
    List.takeWhile_nil, List.dropWhile_nil, if_neg hm1, if_neg hp1,
    List.isEmpty_cons, if_true, ite_true]
  rw [if_neg (by decide : ¬ false = true)]
  have key : (10 * (n / 10) + n % 10 : ℕ) = n := by omega
  congr 1
  rw [natOfDigits_two, hv1, hv2]
  exact_mod_cast key

theorem pyFloat_threeDigits (n : ℕ) (hn : n ≤ 999) :
    pyFloat (threeDigits n) = some (n : ℚ) := by
  obtain ⟨hd1, -, -, hv1⟩ := digitChar_spec (n / 100) (by omega)
  obtain ⟨hd2, -, -, hv2⟩ := digitChar_spec (n / 10 % 10) (by omega)
  obtain ⟨hd3, -, -, hv3⟩ := digitChar_spec (n % 10) (by omega)
  obtain ⟨hm1, hp1, -⟩ := isDigit_ne _ hd1
  unfold threeDigits pyFloat pyFloatUnsigned
  simp only [List.takeWhile_cons, hd1, hd2, hd3, List.dropWhile_cons,
    List.takeWhile_nil, List.dropWhile_nil, if_neg hm1, if_neg hp1,
    List.isEmpty_cons, if_true, ite_true]
  rw [if_neg (by decide : ¬ false = true)]
  have key : (100 * (n / 100) + 10 * (n / 10 % 10) + n % 10 : ℕ) = n := by omega
  congr 1
  rw [natOfDigits_three, hv1, hv2, hv3]
  exact_mod_cast key

theorem pyFloat_secFrac (a b : ℕ) (ha : a ≤ 99) (hb : b ≤ 99) :
    pyFloat (twoDigits a ++ '.' :: twoDigits b) =
      some ((a : ℚ) + (b : ℚ) / 100) := by
  obtain ⟨ha1, -, -, hva1⟩ := digitChar_spec (a / 10) (by omega)
  obtain ⟨ha2, -, -, hva2⟩ := digitChar_spec (a % 10) (by omega)
  obtain ⟨hb1, -, -, hvb1⟩ := digitChar_spec (b / 10) (by omega)
  obtain ⟨hb2, -, -, hvb2⟩ := digitChar_spec (b % 10) (by omega)
  obtain ⟨hm1, hp1, -⟩ := isDigit_ne _ ha1
  have hdot : ('.' : Char).isDigit = false := by decide
  unfold twoDigits pyFloat pyFloatUnsigned
  simp only [List.cons_append, List.nil_append, List.takeWhile_cons,
    List.dropWhile_cons, ha1, ha2, hb1, hb2, hdot, if_true, ite_true,
    Bool.false_eq_true, if_false, ite_false, if_neg hm1, if_neg hp1]
  rw [if_pos (show ([(b / 10).digitChar, (b % 10).digitChar].all Char.isDigit)
        = true ∧
        (([(a / 10).digitChar, (a % 10).digitChar] : List Char) ≠ [] ∨
          ([(b / 10).digitChar, (b % 10).digitChar] : List Char) ≠ []) from
      ⟨by simp [hb1, hb2], Or.inl (by simp)⟩)]
  have ka : (10 * (a / 10) + a % 10 : ℕ) = a := by omega
  have kb : (10 * (b / 10) + b % 10 : ℕ) = b := by omega
  congr 1
  rw [show fracOfDigits [(b / 10).digitChar, (b % 10).digitChar] =
      natOfDigits [(b / 10).digitChar, (b % 10).digitChar] / 100 from rfl]
  rw [natOfDigits_two, hva1, hva2, natOfDigits_two, hvb1, hvb2]
  rw [show ((10 : ℚ) * ((a / 10 : ℕ) : ℚ) + ((a % 10 : ℕ) : ℚ)) = ((a : ℕ) : ℚ)
      by exact_mod_cast ka]
  rw [show ((10 : ℚ) * ((b / 10 : ℕ) : ℚ) + ((b % 10 : ℕ) : ℚ)) = ((b : ℕ) : ℚ)
      by exact_mod_cast kb]

theorem replaceChar_id {a b : Char} {l : List Char} (h : ∀ c ∈ l, c ≠ a) :
    replaceChar a b l = l := by
  induction l with
  | nil => rfl
  | cons c rest ih =>
    simp only [replaceChar, List.map_cons] at ih ⊢
    rw [if_neg (h c (by simp)), ih (fun x hx => h x (by simp [hx]))]

theorem collapseDoubleSpace_nospace {l : List Char} (h : ∀ c ∈ l, c ≠ ' ') :
    collapseDoubleSpace l = l := by
  induction l with
  | nil => rfl
  | cons a rest ih =>
    cases rest with
    | nil => rfl
    | cons b rest2 =>
      simp only [collapseDoubleSpace]
      rw [if_neg (fun hab => (h a (by simp)) hab.1),
        ih (fun x hx => h x (by simp [hx]))]

theorem collapseDoubleSpace_single {A B : List Char}
    (hA : ∀ c ∈ A, c ≠ ' ') (hB : ∀ c ∈ B, c ≠ ' ') :
    collapseDoubleSpace (A ++ ' ' :: B) = A ++ ' ' :: B := by
  induction A with
  | nil =>
    cases B with
    | nil => rfl
    | cons b rest =>
      simp only [List.nil_append, collapseDoubleSpace]
      rw [if_neg (fun hab => (hB b (by simp)) hab.2),
        collapseDoubleSpace_nospace hB]
  | cons a A' ih =>
    cases A' with
    | nil =>
      simp only [List.cons_append, List.nil_append, collapseDoubleSpace]
      rw [if_neg (fun hab => (hA a (by simp)) hab.1)]
      cases B with
      | nil => rfl
      | cons b rest =>
        simp only [collapseDoubleSpace]
        rw [if_neg (fun hab => (hB b (by simp)) hab.2),
          collapseDoubleSpace_nospace hB]
    | cons a2 A2 =>
      simp only [List.cons_append, collapseDoubleSpace]
      rw [if_neg (fun hab => (hA a (by simp)) hab.1)]
      have := ih (fun x hx => hA x (by simp [hx]))
      simp only [List.cons_append, List.append_eq] at this ⊢
      rw [this]

theorem squashAux_allgood {good : Char → Bool} {rep : Char} {l : List Char}
    (h : ∀ c ∈ l, good c = true) : ∀ b, squashAux good rep b l = l := by
  induction l with
  | nil => intro b; rfl
  | cons c rest ih =>
    intro b
    simp only [squashAux]
    rw [if_pos (h c (by simp)), ih (fun x hx => h x (by simp [hx]))]

theorem squashAux_append_good {good : Char → Bool} {rep : Char}
    {A rest : List Char} (hA : ∀ c ∈ A, good c = true) :
    squashAux good rep false (A ++ rest) =
      A ++ squashAux good rep false rest := by
  induction A with
  | nil => rfl
  | cons c A' ih =>
    simp only [List.cons_append, squashAux, List.append_eq]
    rw [if_pos (hA c (by simp)), ih (fun x hx => hA x (by simp [hx]))]

theorem squashRuns_allgood {good : Char → Bool} {rep : Char} {l : List Char}
    (h : ∀ c ∈ l, good c = true) : squashRuns good rep l = l :=
  squashAux_allgood h false

theorem squashRuns_single_bad {good : Char → Bool} {rep : Char}
    {A B : List Char} (hA : ∀ c ∈ A, good c = true)
    (hB : ∀ c ∈ B, good c = true) (hrep : good rep = false) :
    squashRuns good rep (A ++ rep :: B) = A ++ rep :: B := by
  unfold squashRuns
  rw [squashAux_append_good hA]
  simp only [squashAux, hrep, Bool.false_eq_true, if_false, ite_false]
  rw [squashAux_allgood hB true]

theorem cleanText_solid {A B : List Char}
    (hA : ∀ c ∈ A, allowedChar c = true ∧ pyIsSpace c = false)
    (hB : ∀ c ∈ B, allowedChar c = true ∧ pyIsSpace c = false) :
    cleanText (A ++ ' ' :: B) = A ++ ' ' :: B := by
  have hmem : ∀ c ∈ A ++ ' ' :: B,
      (allowedChar c = true ∧ (c = ' ' ∨ pyIsSpace c = false)) := by
    intro c hc
    rcases List.mem_append.1 hc with h | h
    · exact ⟨(hA c h).1, Or.inr (hA c h).2⟩
    · rcases List.mem_cons.1 h with rfl | h
      · exact ⟨by decide, Or.inl rfl⟩
      · exact ⟨(hB c h).1, Or.inr (hB c h).2⟩
  have hne : ∀ c ∈ A ++ ' ' :: B, c ≠ '\n' ∧ c ≠ '*' ∧ c ≠ '/' ∧ c ≠ ',' := by
    intro c hc
    obtain ⟨h1, h2⟩ := hmem c hc
    refine ⟨?_, ?_, ?_, ?_⟩ <;> rintro rfl
    · rcases h2 with h2 | h2
      · cases h2
      · exact absurd h2 (by decide)
    · exact absurd h1 (by decide)
    · exact absurd h1 (by decide)
    · exact absurd h1 (by decide)
  show squashRuns (fun c => ¬ pyIsSpace c) ' '
      (squashRuns allowedChar ' '
        (collapseDoubleSpace
          (replaceChar ',' '.'
            (replaceChar '/' '\''
              (replaceChar '*' '°'
                (replaceChar '\n' ' ' (A ++ ' ' :: B))))))) = A ++ ' ' :: B
  rw [replaceChar_id (fun c hc => (hne c hc).1),
    replaceChar_id (fun c hc => (hne c hc).2.1),
    replaceChar_id (fun c hc => (hne c hc).2.2.1),
    replaceChar_id (fun c hc => (hne c hc).2.2.2)]
  rw [collapseDoubleSpace_single
    (fun c hc => by
      rintro rfl
      exact absurd (hA ' ' hc).2 (by decide))
    (fun c hc => by
      rintro rfl
      exact absurd (hB ' ' hc).2 (by decide))]
  rw [squashRuns_allgood (fun c hc => (hmem c hc).1)]
  rw [squashRuns_single_bad
    (fun c hc => by simp [(hA c hc).2])
    (fun c hc => by simp [(hB c hc).2])
    (by simp [pyIsSpace])]

theorem orElse_some {α : Type} {x : Option α} {f : Unit → Option α} {v : α}
    (h : x = some v) : x.orElse f = some v := by
  rw [h]
  rfl

theorem chomp_fail {α : Type} {cls : Char → Bool} {mx : ℕ} {c : Char}
    {r : List Char} (hc : cls c = false)
    (k : List Char → List Char → Option α) :
    chomp cls 1 mx (c :: r) k = none := by
  unfold chomp classSplits firstSome
  simp [List.takeWhile_cons, hc]

theorem classSplits_two {cls : Char → Bool} {x y : Char} {r : List Char}
    (hx : cls x = true) (hy : cls y = true)
    (hr : ∀ c ∈ r.head?, cls c = false) {mx : ℕ} (hmx : 2 ≤ mx) :
    classSplits cls 1 mx (x :: y :: r) = [([x, y], r), ([x], y :: r)] := by
  have htw : List.takeWhile cls r = [] := by
    cases r with
    | nil => rfl
    | cons c rest => simp [List.takeWhile_cons, hr c rfl]
  unfold classSplits
  rw [List.takeWhile_cons, if_pos hx, List.takeWhile_cons, if_pos hy, htw]
  rw [List.take_of_length_le (by simp; omega)]
  rw [if_neg (by simp)]
  rw [show List.range ([x, y].length + 1 - 1) = [0, 1] from rfl]
  simp

theorem classSplits_three {cls : Char → Bool} {x y z : Char} {r : List Char}
    (hx : cls x = true) (hy : cls y = true) (hz : cls z = true)
    (hr : ∀ c ∈ r.head?, cls c = false) {mx : ℕ} (hmx : 3 ≤ mx) :
    classSplits cls 1 mx (x :: y :: z :: r) =
      [([x, y, z], r), ([x, y], z :: r), ([x], y :: z :: r)] := by
  have htw : List.takeWhile cls r = [] := by
    cases r with
    | nil => rfl
    | cons c rest => simp [List.takeWhile_cons, hr c rfl]
  unfold classSplits
  rw [List.takeWhile_cons, if_pos hx, List.takeWhile_cons, if_pos hy,
    List.takeWhile_cons, if_pos hz, htw]
  rw [List.take_of_length_le (by simp; omega)]
  rw [if_neg (by simp)]
  rw [show List.range ([x, y, z].length + 1 - 1) = [0, 1, 2] from rfl]
  simp

theorem chomp_two_succeeds {α : Type} {cls : Char → Bool} {x y : Char}
    {r : List Char} {k : List Char → List Char → Option α} {v : α}
    (hx : cls x = true) (hy : cls y = true)
    (hr : ∀ c ∈ r.head?, cls c = false) {mx : ℕ} (hmx : 2 ≤ mx)
    (hk : k [x, y] r = some v) :
    chomp cls 1 mx (x :: y :: r) k = some v := by
  unfold chomp
  rw [classSplits_two hx hy hr hmx]
  unfold firstSome
  exact orElse_some hk

theorem chomp_three_succeeds {α : Type} {cls : Char → Bool} {x y z : Char}
    {r : List Char} {k : List Char → List Char → Option α} {v : α}
    (hx : cls x = true) (hy : cls y = true) (hz : cls z = true)
    (hr : ∀ c ∈ r.head?, cls c = false) {mx : ℕ} (hmx : 3 ≤ mx)
    (hk : k [x, y, z] r = some v) :
    chomp cls 1 mx (x :: y :: z :: r) k = some v := by
  unfold chomp
  rw [classSplits_three hx hy hz hr hmx]
  unfold firstSome
  exact orElse_some hk

theorem optClass_succeeds {α : Type} {cls : Char → Bool} {c : Char}
    {rest : List Char} {k : List Char → Option α} {v : α}
    (hc : cls c = true) (hk : k rest = some v) :
    optClass cls (c :: rest) k = some v := by
  unfold optClass
  dsimp only
  rw [if_pos hc]
  exact orElse_some hk

theorem oneClass_succeeds {α : Type} {cls : Char → Bool} {c : Char}
    {rest : List Char} {k : Char → List Char → Option α} {v : α}
    (hc : cls c = true) (hk : k c rest = some v) :
    oneClass cls (c :: rest) k = some v := by
  unfold oneClass
  dsimp only
  rw [if_pos hc]
  exact hk

theorem secondsOpt_succeeds {α : Type} {s1 s2 f1 f2 : Char} {r : List Char}
    {k : Option (List Char) → List Char → Option α} {v : α}
    (hs1 : s1.isDigit = true) (hs2 : s2.isDigit = true)
    (hf1 : f1.isDigit = true) (hf2 : f2.isDigit = true)
    (hr : ∀ c ∈ r.head?, c.isDigit = false)
    (hk : k (some [s1, s2, '.', f1, f2]) r = some v) :
    secondsOpt (s1 :: s2 :: '.' :: f1 :: f2 :: r) k = some v := by
  unfold secondsOpt
  apply orElse_some
  refine chomp_two_succeeds hs1 hs2 ?_ (le_refl 2) ?_
  · intro c hc
    simp at hc
    subst hc
    decide
  · show ((chomp Char.isDigit 1 (f1 :: f2 :: r).length (f1 :: f2 :: r)
        fun fs r3 => k (some ([s1, s2] ++ '.' :: fs)) r3).orElse
        fun _ => k (some [s1, s2]) ('.' :: f1 :: f2 :: r)) = some v
    apply orElse_some
    refine chomp_two_succeeds hf1 hf2 hr (by simp) ?_
    exact hk

theorem lazyStar_here {α : Type} {k : List Char → Option α} {s : List Char}
    {v : α} (h : k s = some v) : lazyStar k s = some v := by
  cases s with
  | nil => exact h
  | cons c rest =>
    unfold lazyStar
    exact orElse_some h

theorem lazyStar_step {α : Type} {k : List Char → Option α} {c : Char}
    {rest : List Char} {v : α} (hfail : k (c :: rest) = none)
    (hc : c ≠ '\n') (hv : lazyStar k rest = some v) :
    lazyStar k (c :: rest) = some v := by
  unfold lazyStar
  rw [hfail]
  show (if c = '\n' then none else lazyStar k rest) = some v
  rw [if_neg hc]
  exact hv

theorem searchAt_here {α : Type} {m : List Char → Option α} {s : List Char}
    {v : α} (h : m s = some v) : searchAt m s = some v := by
  cases s with
  | nil => exact h
  | cons c rest =>
    unfold searchAt
    exact orElse_some h

theorem matchDMSAt_shape
    {a1 a2 m1 m2 s1 s2 f1 f2 A1 A2 A3 M1 M2 S1 S2 F1 F2 H W : Char}
    (ha1 : a1.isDigit = true) (ha2 : a2.isDigit = true)
    (hm1 : m1.isDigit = true) (hm2 : m2.isDigit = true)
    (hs1 : s1.isDigit = true) (hs2 : s2.isDigit = true)
    (hf1 : f1.isDigit = true) (hf2 : f2.isDigit = true)
    (hA1 : A1.isDigit = true) (hA2 : A2.isDigit = true)
    (hA3 : A3.isDigit = true)
    (hM1 : M1.isDigit = true) (hM2 : M2.isDigit = true)
    (hS1 : S1.isDigit = true) (hS2 : S2.isDigit = true)
    (hF1 : F1.isDigit = true) (hF2 : F2.isDigit = true)
    (hH : latHem H = true) (hW : lonHem W = true) :
    matchDMSAt (a1 :: a2 :: '°' :: m1 :: m2 :: '\'' :: s1 :: s2 :: '.' ::
        f1 :: f2 :: '"' :: H :: ' ' :: A1 :: A2 :: A3 :: '°' :: M1 :: M2 ::
        '\'' :: S1 :: S2 :: '.' :: F1 :: F2 :: '"' :: W :: []) =
      some ⟨[a1, a2], [m1, m2], some [s1, s2, '.', f1, f2], H,
        [A1, A2, A3], [M1, M2], some [S1, S2, '.', F1, F2], W⟩ := by
  unfold matchDMSAt
  refine chomp_two_succeeds ha1 ha2 ?_ (le_refl 2) ?_
  · intro c hc
    simp at hc
    subst hc
    decide
  refine optClass_succeeds (by decide) ?_
  refine chomp_two_succeeds hm1 hm2 ?_ (le_refl 2) ?_
  · intro c hc
    simp at hc
    subst hc
    decide
  refine optClass_succeeds (by decide) ?_
  refine secondsOpt_succeeds hs1 hs2 hf1 hf2 ?_ ?_
  · intro c hc
    simp at hc
    subst hc
    decide
  refine optClass_succeeds (by decide) ?_
  refine oneClass_succeeds hH ?_
  refine lazyStar_step ?_ (by decide) ?_
  · exact chomp_fail (by decide) _
  refine lazyStar_here ?_
  refine chomp_three_succeeds hA1 hA2 hA3 ?_ (le_refl 3) ?_
  · intro c hc
    simp at hc
    subst hc
    decide
  refine optClass_succeeds (by decide) ?_
  refine chomp_two_succeeds hM1 hM2 ?_ (le_refl 2) ?_
  · intro c hc
    simp at hc
    subst hc
    decide
  refine optClass_succeeds (by decide) ?_
  refine secondsOpt_succeeds hS1 hS2 hF1 hF2 ?_ ?_
  · intro c hc
    simp at hc
    subst hc
    decide
  refine optClass_succeeds (by decide) ?_
  refine oneClass_succeeds hW ?_
  rfl

theorem dms_chunks_value (n : ℕ) :
    ((n / 360000 : ℕ) : ℚ) + ((n / 6000 % 60 : ℕ) : ℚ) / 60 +
      (((n % 6000 / 100 : ℕ) : ℚ) + ((n % 100 : ℕ) : ℚ) / 100) / 3600 =
      (n : ℚ) / 360000 := by
  have key : (n / 360000) * 360000 + (n / 6000 % 60) * 6000 +
      (n % 6000 / 100) * 100 + n % 100 = n := by omega
  have keyQ : ((n / 360000 : ℕ) : ℚ) * 360000 +
      ((n / 6000 % 60 : ℕ) : ℚ) * 6000 +
      ((n % 6000 / 100 : ℕ) : ℚ) * 100 + ((n % 100 : ℕ) : ℚ) = (n : ℚ) := by
    exact_mod_cast key
  linear_combination keyQ / 360000

theorem floor_div_facts (y : ℚ) (hy : 0 ≤ y) :
    ((⌊y * 360000⌋).toNat : ℚ) / 360000 ≤ y ∧
      y - ((⌊y * 360000⌋).toNat : ℚ) / 360000 < 1 / 360000 := by
  have h0 : (0 : ℚ) ≤ y * 360000 := by positivity
  have hfl : (0 : ℤ) ≤ ⌊y * 360000⌋ := Int.floor_nonneg.mpr h0
  have hcast : ((⌊y * 360000⌋).toNat : ℚ) = ((⌊y * 360000⌋ : ℤ) : ℚ) := by
    exact_mod_cast Int.toNat_of_nonneg hfl
  rw [hcast]
  have hle : ((⌊y * 360000⌋ : ℤ) : ℚ) ≤ y * 360000 := Int.floor_le _
  have hlt : y * 360000 < ((⌊y * 360000⌋ : ℤ) : ℚ) + 1 := Int.lt_floor_add_one _
  constructor
  · rw [div_le_iff₀ (by norm_num : (0:ℚ) < 360000)]
    exact hle
  · rw [sub_lt_iff_lt_add, show (1 : ℚ) / 360000 +
      ((⌊y * 360000⌋ : ℤ) : ℚ) / 360000 =
      (((⌊y * 360000⌋ : ℤ) : ℚ) + 1) / 360000 by ring,
      lt_div_iff₀ (by norm_num : (0:ℚ) < 360000)]
    linarith

theorem floorN_bound (y : ℚ) (bound : ℕ)
    (hb : y ≤ (bound : ℚ)) : (⌊y * 360000⌋).toNat ≤ bound * 360000 := by
  have h1 : y * 360000 ≤ ((bound * 360000 : ℕ) : ℚ) := by
    push_cast
    nlinarith
  have h2 : ⌊y * 360000⌋ ≤ ((bound * 360000 : ℕ) : ℤ) := by
    have := Int.floor_le_floor h1
    rwa [Int.floor_natCast] at this
  exact Int.toNat_le.mpr h2

theorem twoDigits_solid (n : ℕ) (hn : n ≤ 99) :
    ∀ c ∈ twoDigits n, allowedChar c = true ∧ pyIsSpace c = false := by
  intro c hc
  unfold twoDigits at hc
  rcases List.mem_cons.1 hc with rfl | hc2
  · exact ⟨(digitChar_spec _ (by omega)).2.1, (digitChar_spec _ (by omega)).2.2.1⟩
  rcases List.mem_cons.1 hc2 with rfl | hc3
  · exact ⟨(digitChar_spec _ (by omega)).2.1, (digitChar_spec _ (by omega)).2.2.1⟩
  cases hc3

theorem threeDigits_solid (n : ℕ) (hn : n ≤ 999) :
    ∀ c ∈ threeDigits n, allowedChar c = true ∧ pyIsSpace c = false := by
  intro c hc
  unfold threeDigits at hc
  rcases List.mem_cons.1 hc with rfl | hc2
  · exact ⟨(digitChar_spec _ (by omega)).2.1, (digitChar_spec _ (by omega)).2.2.1⟩
  rcases List.mem_cons.1 hc2 with rfl | hc3
  · exact ⟨(digitChar_spec _ (by omega)).2.1, (digitChar_spec _ (by omega)).2.2.1⟩
  rcases List.mem_cons.1 hc3 with rfl | hc4
  · exact ⟨(digitChar_spec _ (by omega)).2.1, (digitChar_spec _ (by omega)).2.2.1⟩
  cases hc4

theorem formatAxis_solid (x : ℚ) (dd : ℕ → List Char) (pos neg : Char)
    (hdd : ∀ c ∈ dd ((⌊|x| * 360000⌋).toNat / 360000),
        allowedChar c = true ∧ pyIsSpace c = false)
    (hpos : allowedChar pos = true ∧ pyIsSpace pos = false)
    (hneg : allowedChar neg = true ∧ pyIsSpace neg = false) :
    ∀ c ∈ formatAxisDMS x dd pos neg,
      allowedChar c = true ∧ pyIsSpace c = false := by
  intro c hc
  unfold formatAxisDMS at hc
  simp only [List.mem_append, List.mem_cons, List.mem_singleton] at hc
  rcases hc with hc | hc | hc | hc | hc | hc | hc | hc | hc
  · exact hdd c hc
  · subst hc
    exact ⟨by decide, by decide⟩
  · exact twoDigits_solid _ (by omega) c hc
  · subst hc
    exact ⟨by decide, by decide⟩
  · exact twoDigits_solid _ (by omega) c hc
  · subst hc
    exact ⟨by decide, by decide⟩
  · exact twoDigits_solid _ (by omega) c hc
  · subst hc
    exact ⟨by decide, by decide⟩
  · rcases hc with rfl | h0
    · by_cases hx : x < 0
      · simpa [hx] using hneg
      · simpa [hx] using hpos
    · cases h0

theorem dmsFromGroups_shape (nA nB : ℕ) (H W : Char)
    (hA : nA ≤ 90 * 360000) (hB : nB ≤ 180 * 360000)
    (hH : H = 'N' ∨ H = 'S') (hW : W = 'E' ∨ W = 'W') :
    dmsFromGroups
      ⟨twoDigits (nA / 360000), twoDigits (nA / 6000 % 60),
        some (twoDigits (nA % 6000 / 100) ++ '.' :: twoDigits (nA % 100)), H,
        threeDigits (nB / 360000), twoDigits (nB / 6000 % 60),
        some (twoDigits (nB % 6000 / 100) ++ '.' :: twoDigits (nB % 100)), W⟩ =
      some ((if H = 'S' then -((nA : ℚ) / 360000) else (nA : ℚ) / 360000),
        (if W = 'W' then -((nB : ℚ) / 360000) else (nB : ℚ) / 360000)) := by
  have hvA : (0:ℚ) ≤ (nA : ℚ) / 360000 ∧ (nA : ℚ) / 360000 ≤ 90 := by
    constructor
    · positivity
    · rw [div_le_iff₀ (by norm_num : (0:ℚ) < 360000)]
      exact_mod_cast hA
  have hvB : (0:ℚ) ≤ (nB : ℚ) / 360000 ∧ (nB : ℚ) / 360000 ≤ 180 := by
    constructor
    · positivity
    · rw [div_le_iff₀ (by norm_num : (0:ℚ) < 360000)]
      exact_mod_cast hB
  unfold dmsFromGroups secVal
  dsimp only
  rw [pyFloat_twoDigits _ (by omega), pyFloat_twoDigits _ (by omega),
    pyFloat_secFrac _ _ (by omega) (by omega),
    pyFloat_threeDigits _ (by omega), pyFloat_twoDigits _ (by omega),
    pyFloat_secFrac _ _ (by omega) (by omega)]
  dsimp only
  rw [dms_chunks_value nA, dms_chunks_value nB]
  rcases hH with rfl | rfl <;> rcases hW with rfl | rfl
  · rw [if_neg (by decide : ¬ ('N' : Char).toUpper = 'S'),
      if_neg (by decide : ¬ ('E' : Char).toUpper = 'W'),
      if_pos (show inRange ((nA : ℚ) / 360000) ((nB : ℚ) / 360000) from by
        unfold inRange
        refine ⟨by linarith [hvA.1], by linarith [hvA.2],
          by linarith [hvB.1], by linarith [hvB.2]⟩),
      if_neg (by decide : ¬ ('N' : Char) = 'S'),
      if_neg (by decide : ¬ ('E' : Char) = 'W')]
  · rw [if_neg (by decide : ¬ ('N' : Char).toUpper = 'S'),
      if_pos (by decide : ('W' : Char).toUpper = 'W'),
      if_pos (show inRange ((nA : ℚ) / 360000) (-((nB : ℚ) / 360000)) from by
        unfold inRange
        refine ⟨by linarith [hvA.1], by linarith [hvA.2],
          by linarith [hvB.2], by linarith [hvB.1]⟩),
      if_neg (by decide : ¬ ('N' : Char) = 'S'),
      if_pos (by decide : ('W' : Char) = 'W')]
  · rw [if_pos (by decide : ('S' : Char).toUpper = 'S'),
      if_neg (by decide : ¬ ('E' : Char).toUpper = 'W'),
      if_pos (show inRange (-((nA : ℚ) / 360000)) ((nB : ℚ) / 360000) from by
        unfold inRange
        refine ⟨by linarith [hvA.2], by linarith [hvA.1],
          by linarith [hvB.1], by linarith [hvB.2]⟩),
      if_pos (by decide : ('S' : Char) = 'S'),
      if_neg (by decide : ¬ ('E' : Char) = 'W')]
  · rw [if_pos (by decide : ('S' : Char).toUpper = 'S'),
      if_pos (by decide : ('W' : Char).toUpper = 'W'),
      if_pos (show inRange (-((nA : ℚ) / 360000)) (-((nB : ℚ) / 360000)) from by
        unfold inRange
        refine ⟨by linarith [hvA.2], by linarith [hvA.1],
          by linarith [hvB.2], by linarith [hvB.1]⟩),
      if_pos (by decide : ('S' : Char) = 'S'),
      if_pos (by decide : ('W' : Char) = 'W')]

/-- C2: for every valid pair (lat, lon) with −90 ≤ lat ≤ 90 and
−180 ≤ lon ≤ 180, rendering the pair as DMS text (`formatDMS`, the
spec-modelled renderer — the repository contains no formatter) and running
it through the text coordinate parser reproduces the original pair to
within 1e-4 degrees on each axis; in fact the recovered value errs by less
than one centisecond (1/360000 of a degree). -/
theorem dms_roundtrip :
    ∀ lat lon : ℚ, -90 ≤ lat → lat ≤ 90 → -180 ≤ lon → lon ≤ 180 →
      ∃ latP lonP : ℚ,
        parseGpsFromText (formatDMS lat lon) = some (latP, lonP) ∧
        |lat - latP| ≤ 1 / 10000 ∧ |lon - lonP| ≤ 1 / 10000 := by
  intro lat lon h1 h2 h3 h4
  have hla : |lat| ≤ (90 : ℚ) := abs_le.mpr ⟨h1, h2⟩
  have hlo : |lon| ≤ (180 : ℚ) := abs_le.mpr ⟨h3, h4⟩
  obtain ⟨hA1, hA2⟩ := floor_div_facts |lat| (abs_nonneg _)
  obtain ⟨hB1, hB2⟩ := floor_div_facts |lon| (abs_nonneg _)
  have hnA : (⌊|lat| * 360000⌋).toNat ≤ 90 * 360000 :=
    floorN_bound _ 90 (by exact_mod_cast hla)
  have hnB : (⌊|lon| * 360000⌋).toNat ≤ 180 * 360000 :=
    floorN_bound _ 180 (by exact_mod_cast hlo)
  have hsolidA : ∀ c ∈ formatAxisDMS lat twoDigits 'N' 'S',
      allowedChar c = true ∧ pyIsSpace c = false :=
    formatAxis_solid lat twoDigits 'N' 'S' (twoDigits_solid _ (by omega))
      ⟨by decide, by decide⟩ ⟨by decide, by decide⟩
  have hsolidB : ∀ c ∈ formatAxisDMS lon threeDigits 'E' 'W',
      allowedChar c = true ∧ pyIsSpace c = false :=
    formatAxis_solid lon threeDigits 'E' 'W' (threeDigits_solid _ (by omega))
      ⟨by decide, by decide⟩ ⟨by decide, by decide⟩
  have hclean : cleanText (formatAxisDMS lat twoDigits 'N' 'S' ++ ' ' ::
      formatAxisDMS lon threeDigits 'E' 'W') =
      formatAxisDMS lat twoDigits 'N' 'S' ++ ' ' ::
      formatAxisDMS lon threeDigits 'E' 'W' :=
    cleanText_solid hsolidA hsolidB
  have hmatch : matchDMSAt (formatAxisDMS lat twoDigits 'N' 'S' ++ ' ' ::
      formatAxisDMS lon threeDigits 'E' 'W') =
      some ⟨twoDigits ((⌊|lat| * 360000⌋).toNat / 360000),
        twoDigits ((⌊|lat| * 360000⌋).toNat / 6000 % 60),
        some (twoDigits ((⌊|lat| * 360000⌋).toNat % 6000 / 100) ++ '.' ::
          twoDigits ((⌊|lat| * 360000⌋).toNat % 100)),
        (if lat < 0 then 'S' else 'N'),
        threeDigits ((⌊|lon| * 360000⌋).toNat / 360000),
        twoDigits ((⌊|lon| * 360000⌋).toNat / 6000 % 60),
        some (twoDigits ((⌊|lon| * 360000⌋).toNat % 6000 / 100) ++ '.' ::
          twoDigits ((⌊|lon| * 360000⌋).toNat % 100)),
        (if lon < 0 then 'W' else 'E')⟩ :=
    matchDMSAt_shape
      (digitChar_spec _ (by omega)).1 (digitChar_spec _ (by omega)).1
      (digitChar_spec _ (by omega)).1 (digitChar_spec _ (by omega)).1
      (digitChar_spec _ (by omega)).1 (digitChar_spec _ (by omega)).1
      (digitChar_spec _ (by omega)).1 (digitChar_spec _ (by omega)).1
      (digitChar_spec _ (by omega)).1 (digitChar_spec _ (by omega)).1
      (digitChar_spec _ (by omega)).1 (digitChar_spec _ (by omega)).1
      (digitChar_spec _ (by omega)).1 (digitChar_spec _ (by omega)).1
      (digitChar_spec _ (by omega)).1 (digitChar_spec _ (by omega)).1
      (digitChar_spec _ (by omega)).1
      (by by_cases hx : lat < 0 <;> simp [hx, latHem])
      (by by_cases hx : lon < 0 <;> simp [hx, lonHem])
  have hsearch := searchAt_here hmatch
  have hvals := dmsFromGroups_shape ((⌊|lat| * 360000⌋).toNat)
    ((⌊|lon| * 360000⌋).toNat) (if lat < 0 then 'S' else 'N')
    (if lon < 0 then 'W' else 'E') hnA hnB
    (by by_cases hx : lat < 0 <;> simp [hx])
    (by by_cases hx : lon < 0 <;> simp [hx])
  refine ⟨if lat < 0 then -(((⌊|lat| * 360000⌋).toNat : ℚ) / 360000)
      else ((⌊|lat| * 360000⌋).toNat : ℚ) / 360000,
    if lon < 0 then -(((⌊|lon| * 360000⌋).toNat : ℚ) / 360000)
      else ((⌊|lon| * 360000⌋).toNat : ℚ) / 360000, ?_, ?_, ?_⟩
  · unfold parseGpsFromText
    dsimp only
    rw [show (formatDMS lat lon).data =
        formatAxisDMS lat twoDigits 'N' 'S' ++ ' ' ::
        formatAxisDMS lon threeDigits 'E' 'W' from rfl]
    rw [hclean, hsearch]
    dsimp only
    rw [hvals]
    by_cases hx : lat < 0 <;> by_cases hy : lon < 0 <;> simp [hx, hy]
  · by_cases hx : lat < 0
    · rw [if_pos hx,
        show lat - -(((⌊|lat| * 360000⌋).toNat : ℚ) / 360000) =
          -(|lat| - ((⌊|lat| * 360000⌋).toNat : ℚ) / 360000) by
            rw [abs_of_neg hx]; ring,
        abs_neg, abs_of_nonneg (by linarith)]
      have hc : (1 : ℚ) / 360000 ≤ 1 / 10000 := by norm_num
      linarith
    · rw [if_neg hx,
        show lat - ((⌊|lat| * 360000⌋).toNat : ℚ) / 360000 =
          |lat| - ((⌊|lat| * 360000⌋).toNat : ℚ) / 360000 by
            rw [abs_of_nonneg (not_lt.1 hx)],
        abs_of_nonneg (by linarith)]
      have hc : (1 : ℚ) / 360000 ≤ 1 / 10000 := by norm_num
      linarith
  · by_cases hy : lon < 0
    · rw [if_pos hy,
        show lon - -(((⌊|lon| * 360000⌋).toNat : ℚ) / 360000) =
          -(|lon| - ((⌊|lon| * 360000⌋).toNat : ℚ) / 360000) by
            rw [abs_of_neg hy]; ring,
        abs_neg, abs_of_nonneg (by linarith)]
      have hc : (1 : ℚ) / 360000 ≤ 1 / 10000 := by norm_num
      linarith
    · rw [if_neg hy,
        show lon - ((⌊|lon| * 360000⌋).toNat : ℚ) / 360000 =
          |lon| - ((⌊|lon| * 360000⌋).toNat : ℚ) / 360000 by
            rw [abs_of_nonneg (not_lt.1 hy)],
        abs_of_nonneg (by linarith)]
      have hc : (1 : ℚ) / 360000 ≤ 1 / 10000 := by norm_num
      linarith


/-- Witness for C2: the round trip instantiated at (−10.5, 110.5). -/
theorem dms_roundtrip_witness :
    ∃ latP lonP : ℚ,
      parseGpsFromText (formatDMS (-21/2) (221/2)) = some (latP, lonP) ∧
      |(-21/2 : ℚ) - latP| ≤ 1 / 10000 ∧ |(221/2 : ℚ) - lonP| ≤ 1 / 10000 :=
  dms_roundtrip (-21/2) (221/2) (by norm_num) (by norm_num) (by norm_num)
    (by norm_num)

end GeoPhoto
